import Mathlib

/-!
Verification development for the Market Intelligence Entity pipeline
(feature flags, model client, phase agents, orchestrator, consolidator).

Shallow embedding conventions:
* JavaScript numbers carrying confidence scores are modelled as rationals (ℚ).
* A JavaScript value that may be `null`/`undefined` is an `Option`.
* JavaScript truthiness on strings is emptiness, on numbers it is `≠ 0`,
  on objects it is `Option.isSome`.
* Timestamps (`Date.now`, `new Date().toISOString()`), logging, prompt text
  and usage counters are elided: they never influence the values the
  theorems below talk about.
* The language-model collaborator is a black box: a call either yields an
  `LlmResult` (with the JSON already parsed into the expected shape, or
  `none` when parsing failed) or raises, which we model with `Except`.
-/

-- ═══════════════════════════════════════════════════════════════════
-- feature_flag.js
-- ═══════════════════════════════════════════════════════════════════

namespace FeatureFlag

/-- A flag table: JavaScript object mapping `<NAME>_ENABLED` keys to booleans.
An absent key reads as `undefined`. -/
abbrev FlagTable := List (String × Bool)

def lookupFlag (table : FlagTable) (key : String) : Option Bool :=
  match table with
  | [] => none
  | (k, v) :: rest => if k = key then some v else lookupFlag rest key

/-- The module-level `FEATURE_FLAG` constant: master switch plus the
sub-feature keys, all `true` in the source. -/
def FEATURE_FLAG : FlagTable :=
  [(("SERP_DISCOVERY_ENABLED"), true),
   (("COMPETITOR_ENRICHMENT_ENABLED"), true),
   (("AI_ANALYSIS_ENABLED"), true),
   (("WEBSITE_EXTRACTION_ENABLED"), true),
   (("EXTERNAL_PRESENCE_ENABLED"), true),
   (("MARKETING_CONVERSION_ENABLED"), true),
   (("COMPETITOR_ANALYSIS_ENABLED"), true)]

/-- `FEATURE_FLAG.ENABLED` in the source. -/
def FEATURE_FLAG_ENABLED : Bool := true

/-- `isEnabled()`: the environment variable `MARKET_INTEL_ENABLED` overrides
the configured default; `envValue` is that variable (`none` = not set).
`envValue === 'true' || envValue === '1'`. -/
def isEnabled (envValue : Option String) : Bool :=
  match envValue with
  | some v => v = ("true") || v = ("1")
  | none => FEATURE_FLAG_ENABLED

/-- JavaScript `String.prototype.toUpperCase` (ASCII), written over the
character list so that it evaluates by kernel reduction. -/
def toUpperCase (s : String) : String := String.mk (s.data.map Char.toUpper)

/-- `isSubFeatureEnabled(featureName)` generalized over the flag table the
object lookup runs against (`FEATURE_FLAG` in the source).  A `null`
feature name makes `featureName.toUpperCase()` raise; the `catch` turns
that into `false`. `FEATURE_FLAG[flagKey] === true` is `false` on an
absent key. -/
def isSubFeatureEnabledIn (envValue : Option String) (table : FlagTable)
    (featureName : Option String) : Bool :=
  if !(isEnabled envValue) then false
  else
    match featureName with
    | none => false
    | some s => lookupFlag table (toUpperCase s ++ "_ENABLED") = some true

/-- `isSubFeatureEnabled` against the source's own `FEATURE_FLAG` table. -/
def isSubFeatureEnabled (envValue : Option String) (featureName : Option String) : Bool :=
  isSubFeatureEnabledIn envValue FEATURE_FLAG featureName

end FeatureFlag

-- ═══════════════════════════════════════════════════════════════════
-- openrouter_client.js (OpenRouterClient)
-- ═══════════════════════════════════════════════════════════════════

namespace OpenRouterClient

/-- Phase entry of `config.phases` (temperature / token budget elided:
they only shape the HTTP request body). -/
structure PhaseConfig where
  primaryModel : String
  fallbackModel : Option String
deriving DecidableEq, Repr

/-- The parts of the client configuration that decide control flow. -/
structure ClientConfig where
  maxRetries : Option Nat
  phases : List (String × PhaseConfig)
  defaultPhase : Option PhaseConfig
deriving DecidableEq, Repr

def lookupPhase (phases : List (String × PhaseConfig)) (phase : String) :
    Option PhaseConfig :=
  match phases with
  | [] => none
  | (k, v) :: rest => if k = phase then some v else lookupPhase rest phase

/-- `this.config.phases[phase] || this.config.phases.default || {literal}`. -/
def phaseConfigFor (cfg : ClientConfig) (phase : String) : PhaseConfig :=
  match lookupPhase cfg.phases phase with
  | some pc => pc
  | none =>
    match cfg.defaultPhase with
    | some pc => pc
    | none => { primaryModel := ("anthropic/claude-sonnet-4"), fallbackModel := none }

/-- `this.config.api?.maxRetries || 3` (note `0` is falsy). -/
def effectiveMaxRetries (cfg : ClientConfig) : Nat :=
  match cfg.maxRetries with
  | some n => if n = 0 then 3 else n
  | none => 3

/-- One attempt against a named model is a black box: given the model name
and the attempt number it succeeds with a response payload or raises. -/
abbrev ModelBehavior := String → Nat → Except String String

/-- Retry loop body of `_executeCompletion`: try the listed attempt numbers
in order, return the first success, else raise the last error.  The second
component counts how many attempts were actually made. -/
def runAttempts (beh : ModelBehavior) (model : String) :
    List Nat → String → Except String String × Nat
  | [], lastErr => (Except.error lastErr, 0)
  | a :: rest, _ =>
    match beh model a with
    | Except.ok r => (Except.ok r, 1)
    | Except.error e =>
      let res := runAttempts beh model rest e
      (res.1, res.2 + 1)

/-- `_executeCompletion(model, ...)`: up to `maxRetries` attempts with
backoff (delay elided), throwing the last error on exhaustion. -/
def executeCompletion (beh : ModelBehavior) (maxRetries : Nat) (model : String) :
    Except String String × Nat :=
  runAttempts beh model (List.range' 1 maxRetries) ("no attempt made")

/-- `complete(phase, ...)`: primary model through the retry loop; on
exhaustion the fallback model (when configured) through the same retry
loop; both failing raises the aggregate error; no fallback configured
re-raises the primary error.  Returns the result together with
(primary attempts, fallback attempts). -/
def complete (cfg : ClientConfig) (beh : ModelBehavior) (phase : String) :
    Except String String × (Nat × Nat) :=
  let pc := phaseConfigFor cfg phase
  let mr := effectiveMaxRetries cfg
  match executeCompletion beh mr pc.primaryModel with
  | (Except.ok r, n) => (Except.ok r, (n, 0))
  | (Except.error pe, n) =>
    match pc.fallbackModel with
    | some fb =>
      match executeCompletion beh mr fb with
      | (Except.ok r, m) => (Except.ok r, (n, m))
      | (Except.error fe, m) =>
        (Except.error ("All models failed for phase " ++ phase ++ ": " ++ fe), (n, m))
    | none => (Except.error pe, (n, 0))

end OpenRouterClient

-- ═══════════════════════════════════════════════════════════════════
-- phase1_website_extraction_agent.js (WebsiteExtractionAgent)
-- ═══════════════════════════════════════════════════════════════════

namespace WebsiteExtractionAgent

/-- An entry pushed on `sources` (the `type` key is only present on the
schema.org entry). -/
structure SourceRef where
  url : String
  selector : String
  srcType : Option String
deriving DecidableEq, Repr

structure NameField where
  value : String
  confidence : Option ℚ
  sources : List SourceRef
deriving DecidableEq, Repr

structure LocationField where
  country : String
  city : String
  confidence : Option ℚ
deriving DecidableEq, Repr

structure CategoryField where
  value : String
  taxonomy : String
  confidence : Option ℚ
deriving DecidableEq, Repr

structure BusinessIdentity where
  name : Option NameField
  location : Option LocationField
  category : Option CategoryField
deriving DecidableEq, Repr

structure Offering where
  name : String
  rank : Option Nat
  confidence : Option ℚ
deriving DecidableEq, Repr

structure ProofAsset where
  assetType : String
  confidence : Option ℚ
deriving DecidableEq, Repr

structure Package where
  name : String
  confidence : Option ℚ
deriving DecidableEq, Repr

structure OfferStructure where
  packages : List Package
deriving DecidableEq, Repr

structure Evidence where
  snapshots : List String
deriving DecidableEq, Repr

/-- The Phase-1 artifact object.  Keys the code may leave absent are
`Option`; `url` is `Option` because `websiteData.url` can be `undefined`. -/
structure Profile where
  url : Option String
  phase : Option String
  business_identity : Option BusinessIdentity
  primary_offerings : Option (List Offering)
  proof_assets : Option (List ProofAsset)
  offer_structure : Option OfferStructure
  evidence : Option Evidence
  overall_confidence : Option ℚ
  extraction_status : Option String
  extraction_error : Option String
deriving DecidableEq, Repr

/-- The parsed schema.org JSON-LD block (only its `name` matters to the
reconciliation step; the regex + JSON.parse that produce it from the raw
HTML are represented by this already-parsed value carried on the input). -/
structure SchemaOrgData where
  name : Option String
deriving DecidableEq, Repr

/-- `websiteData` as consumed by the agent.  `schemaOrg` stands for the
result of `_extractDeterministicData`'s JSON-LD extraction on `html`. -/
structure WebsiteData where
  url : Option String
  html : String
  textContent : String
  schemaOrg : Option SchemaOrgData
deriving DecidableEq, Repr

/-- Model-client result as the agent sees it: the structured payload when
the completion parsed into the expected shape, `none` otherwise
(`parsed` null, non-JSON string content, or the `parsed || llmResult`
fallback whose object has none of the profile keys). -/
structure LlmResult where
  parsed : Option Profile
  model : Option String
deriving DecidableEq, Repr

/-- `_getEmptyProfile(url)`. -/
def getEmptyProfile (url : Option String) : Profile :=
  { url := url
  , phase := some ("phase1_website_extraction")
  , business_identity := some
      { name := some { value := (""), confidence := some 0, sources := [] }
      , location := some { country := (""), city := (""), confidence := some 0 }
      , category := some { value := (""), taxonomy := (""), confidence := some 0 } }
  , primary_offerings := some []
  , proof_assets := some []
  , offer_structure := some { packages := [] }
  , evidence := some { snapshots := [] }
  , overall_confidence := some 0
  , extraction_status := none
  , extraction_error := none }

/-- `_getErrorProfile(url, error)`. -/
def getErrorProfile (url : Option String) (err : String) : Profile :=
  { getEmptyProfile url with
      extraction_error := some err
    , extraction_status := some ("failed") }

/-- JavaScript `String.prototype.toLowerCase` (ASCII), over the character
list so that it evaluates by kernel reduction. -/
def toLowerCase (s : String) : String := String.mk (s.data.map Char.toLower)

/-- JavaScript `String.prototype.trim`: strip whitespace from both ends. -/
def trimEnds (s : String) : String :=
  String.mk (((s.data.dropWhile Char.isWhitespace).reverse.dropWhile
    Char.isWhitespace).reverse)

/-- `b.isPrefixOf`-based substring test: JavaScript `a.includes(b)`. -/
def strIncludes (a b : String) : Bool :=
  let rec go (needle : List Char) : List Char → Bool
    | [] => needle.isEmpty
    | c :: rest => needle.isPrefixOf (c :: rest) || go needle rest
  go b.toList a.toList

/-- `_similarityScore(str1, str2)`: 0 on an empty (falsy) side, 1 on
equality after lowercasing and trimming, 0.9 on symmetric containment,
0 otherwise. -/
def similarityScore (str1 str2 : String) : ℚ :=
  if str1 = ("") ∨ str2 = ("") then 0
  else
    let s1 := trimEnds (toLowerCase str1)
    let s2 := trimEnds (toLowerCase str2)
    if s1 = s2 then 1
    else if strIncludes s1 s2 || strIncludes s2 s1 then (9 : ℚ)/10
    else 0

/-- `profile?.business_identity?.name?.confidence || 0`. -/
def nameConfOf (p : Profile) : ℚ :=
  match p.business_identity with
  | some bi => match bi.name with
    | some n => n.confidence.getD 0
    | none => 0
  | none => 0

/-- `profile?.business_identity?.category?.confidence || 0`. -/
def catConfOf (p : Profile) : ℚ :=
  match p.business_identity with
  | some bi => match bi.category with
    | some c => c.confidence.getD 0
    | none => 0
  | none => 0

/-- `(profile?.primary_offerings?.length > 0) ? 0.7 : 0`. -/
def offeringScoreOf (p : Profile) : ℚ :=
  match p.primary_offerings with
  | some l => if l.length > 0 then (7 : ℚ)/10 else 0
  | none => 0

/-- `(profile?.proof_assets?.length > 0) ? 0.6 : 0`. -/
def proofScoreOf (p : Profile) : ℚ :=
  match p.proof_assets with
  | some l => if l.length > 0 then (6 : ℚ)/10 else 0
  | none => 0

/-- The `_calculateOverallConfidence` used on the parse path
(description mode): mean of name confidence, category confidence, a flat
0.7 when any offering exists and a flat 0.6 when any proof asset exists. -/
def parseOverallConfidence (p : Profile) : ℚ :=
  (nameConfOf p + catConfOf p + offeringScoreOf p + proofScoreOf p) / 4

/-- `_parseAndValidateProfile(llmResult, url)`: fill every missing
substructure with its empty default; keep the model's
`overall_confidence` when truthy, else compute it.  An unparseable
response yields the empty profile. -/
def parseAndValidateProfile (r : LlmResult) (url : Option String) : Profile :=
  match r.parsed with
  | none => getEmptyProfile url
  | some p =>
    { url := match p.url with
        | some u => if u = ("") then url else some u
        | none => url
    , phase := none
    , business_identity := some (p.business_identity.getD
        { name := some { value := (""), confidence := some 0, sources := [] }
        , location := some { country := (""), city := (""), confidence := some 0 }
        , category := some { value := (""), taxonomy := (""), confidence := some 0 } })
    , primary_offerings := some (p.primary_offerings.getD [])
    , proof_assets := some (p.proof_assets.getD [])
    , offer_structure := some (p.offer_structure.getD { packages := [] })
    , evidence := some (p.evidence.getD { snapshots := [], })
    , overall_confidence := some
        (match p.overall_confidence with
         | some c => if c ≠ 0 then c else parseOverallConfidence p
         | none => parseOverallConfidence p)
    , extraction_status := p.extraction_status
    , extraction_error := p.extraction_error }

/-- Conditional push of the name factor
(`if (profile.business_identity?.name?.confidence)` — the 1.5 weight). -/
def namePush (p : Profile) : List ℚ :=
  match p.business_identity with
  | some bi => match bi.name with
    | some n => match n.confidence with
      | some c => if c ≠ 0 then [c * ((3 : ℚ)/2)] else []
      | none => []
    | none => []
  | none => []

/-- Conditional push of the category factor. -/
def catPush (p : Profile) : List ℚ :=
  match p.business_identity with
  | some bi => match bi.category with
    | some c => match c.confidence with
      | some v => if v ≠ 0 then [v] else []
      | none => []
    | none => []
  | none => []

/-- Conditional push of the average offering confidence. -/
def offeringPush (p : Profile) : List ℚ :=
  match p.primary_offerings with
  | some l => if l.length > 0 then
      [(l.map (fun o => o.confidence.getD 0)).sum / (l.length : ℚ)] else []
  | none => []

/-- Conditional push of the flat 0.7 proof-asset bonus. -/
def proofPush (p : Profile) : List ℚ :=
  match p.proof_assets with
  | some l => if l.length > 0 then [(7 : ℚ)/10] else []
  | none => []

/-- The `_calculateOverallConfidence` used on the reconciliation path:
name confidence weighted 1.5, category confidence, average offering
confidence, flat 0.7 for having proof assets; mean of the pushed
factors, capped at 1. -/
def reconcileOverallConfidence (p : Profile) : ℚ :=
  let confidences : List ℚ := namePush p ++ catPush p ++ offeringPush p ++ proofPush p
  if confidences.length = 0 then 0
  else min 1 (confidences.sum / (confidences.length : ℚ))

/-- The schema.org reconciliation inside `_validateAndReconcile`:
when the structured-data name and the extracted name are both truthy and
score above 0.8, bump the name confidence by 0.2 (capped at 1) and push
a schema.org source reference. -/
def reconcileName (schemaOrg : Option SchemaOrgData) (url : Option String)
    (bi : Option BusinessIdentity) : Option BusinessIdentity :=
  match schemaOrg with
  | none => bi
  | some schema =>
    match schema.name with
    | none => bi
    | some sn =>
      if sn = ("") then bi
      else
        match bi with
        | none => bi
        | some b =>
          match b.name with
          | none => bi
          | some n =>
            if n.value = ("") then bi
            else if similarityScore sn n.value > (8 : ℚ)/10 then
              let schemaRef : SourceRef :=
                { url := url.getD ("")
                , selector := ("script[type=\x22application/ld+json\x22]")
                , srcType := some ("schema.org") }
              let boosted : NameField :=
                { n with
                    confidence := some (min 1 (n.confidence.getD 0 + (2 : ℚ)/10))
                  , sources := n.sources ++ [schemaRef] }
              some { b with name := some boosted }
            else bi

/-- `_validateAndReconcile(llmResult, deterministicData, url)`. -/
def validateAndReconcile (r : LlmResult) (schemaOrg : Option SchemaOrgData)
    (url : Option String) : Profile :=
  let p0 := r.parsed.getD (getEmptyProfile url)
  let p1 := { p0 with
      url := url
    , phase := some ("phase1_website_extraction") }
  let p2 := { p1 with business_identity := reconcileName schemaOrg url p1.business_identity }
  { p2 with overall_confidence := some (reconcileOverallConfidence p2) }

/-- `extract(websiteData)` with the model collaborator's outcome made an
explicit argument (`Except.error` = the awaited completion raised).
The prompt-construction helpers (`_segmentContent`,
`_buildExtractionPrompt`) only shape the prompt string the black-box
model consumes and are elided. -/
def extract (envValue : Option String) (wd : Option WebsiteData)
    (m : Except String LlmResult) : Profile :=
  if !(FeatureFlag.isEnabled envValue) then
    getEmptyProfile (some (match wd with
      | some w => match w.url with
        | some u => if u = ("") then ("unknown") else u
        | none => ("unknown")
      | none => ("unknown")))
  else
    match wd with
    | none => getEmptyProfile (some ("unknown"))
    | some w =>
      let hasWebsiteContent := w.html ≠ ("") ∨ w.textContent.length > 50
      let hasDescription := w.textContent ≠ ("") ∧
        strIncludes w.textContent ("Business providing:") = true
      if hasWebsiteContent ∧ ¬ hasDescription then
        -- _extractFromWebsite
        match m with
        | Except.error e => getErrorProfile w.url e
        | Except.ok r => validateAndReconcile r w.schemaOrg w.url
      else if hasDescription ∨ w.textContent ≠ ("") then
        -- _generateFromDescription
        let url := match w.url with
          | some u => if u = ("") then some ("N/A") else some u
          | none => some ("N/A")
        match m with
        | Except.error e => getErrorProfile url e
        | Except.ok r => parseAndValidateProfile r url
      else
        getEmptyProfile (some (match w.url with
          | some u => if u = ("") then ("unknown") else u
          | none => ("unknown")))

/-- Structural completeness: every key the Phase-1 schema requires is
present on the artifact. -/
def isCompleteProfile (p : Profile) : Bool :=
  p.business_identity.isSome && p.primary_offerings.isSome &&
  p.proof_assets.isSome && p.offer_structure.isSome &&
  p.evidence.isSome && p.overall_confidence.isSome

end WebsiteExtractionAgent

-- ═══════════════════════════════════════════════════════════════════
-- phase4_competitor_analysis_agent.js (CompetitorAnalysisAgent)
-- ═══════════════════════════════════════════════════════════════════

namespace CompetitorAnalysisAgent

/-- One competitor record as returned by the model and finalized by the
agent.  Fields the confidence calculation inspects are kept; purely
narrative ones (offerings text, differentiators, GBP snapshot) are
carried as an abstract payload that the agent never rewrites. -/
structure Competitor where
  name : String
  domain : String
  rank : Option Nat
  score : Option ℚ
  evidence : List String
  positioning : String
deriving DecidableEq, Repr

/-- The Phase-4 artifact object. -/
structure Analysis where
  phase : Option String
  business_id : Option String
  seed_keywords : Option (List String)
  competitors : Option (List Competitor)
  overall_confidence : Option ℚ
  extraction_status : Option String
  extraction_error : Option String
deriving DecidableEq, Repr

/-- Model-client result for this phase. -/
structure LlmResult where
  parsed : Option Analysis
  model : Option String
deriving DecidableEq, Repr

/-- `_getEmptyAnalysis(businessIdentity)`; `businessName` is
`businessIdentity?.business_identity?.name?.value || 'unknown'`. -/
def getEmptyAnalysis (businessName : Option String) : Analysis :=
  { phase := some ("phase4_competitor_analysis")
  , business_id := some (match businessName with
      | some s => if s = ("") then ("unknown") else s
      | none => ("unknown"))
  , seed_keywords := some []
  , competitors := some []
  , overall_confidence := some 0
  , extraction_status := none
  , extraction_error := none }

/-- `_getErrorAnalysis(businessIdentity, error)`. -/
def getErrorAnalysis (businessName : Option String) (err : String) : Analysis :=
  { getEmptyAnalysis businessName with
      extraction_error := some err
    , extraction_status := some ("failed") }

/-- JavaScript `Set` insertion: append when not already present. -/
def addUnique (l : List String) (s : String) : List String :=
  if s ∈ l then l else l ++ [s]

/-- `_generateSeedKeywords(businessIdentity, providedKeywords)`:
a `Set` built from the provided keywords, the category, the first five
offering names lowercased, location/category combinations and common
competitor-search patterns, then filtered to length > 2. -/
def generateSeedKeywords (category : Option String) (offeringNames : List String)
    (city : Option String) (providedKeywords : List String) : List String :=
  let ks := providedKeywords.foldl addUnique []
  let catS : Option String := match category with
    | some c => if c = ("") then none else some c
    | none => none
  let ks := match catS with
    | some c => addUnique ks c
    | none => ks
  let ks := (offeringNames.take 5).foldl
    (fun acc n => if n = ("") then acc else addUnique acc n.toLower) ks
  let ks := match city, catS with
    | some ci, some c =>
      if ci = ("") then ks
      else addUnique (addUnique ks (c ++ " " ++ ci)) (c ++ " in " ++ ci)
    | _, _ => ks
  let ks := match catS with
    | some c => addUnique (addUnique (addUnique ks ("best " ++ c))
        (c ++ " alternatives")) (c ++ " companies")
    | none => ks
  ks.filter (fun k => k ≠ ("") ∧ k.length > 2)

/-- `_calculateOverallConfidence(analysis)`: mean of four factors —
competitor count over 3, average model score, fraction with evidence,
fraction with substantial positioning. -/
def calculateOverallConfidence (a : Analysis) : ℚ :=
  match a.competitors with
  | none => 0
  | some [] => 0
  | some cs =>
    let n : ℚ := (cs.length : ℚ)
    let countFactor : ℚ := (cs.length : ℚ) / 3
    let avgScore : ℚ := (cs.map (fun c => c.score.getD 0)).sum / n
    let evidenceFactor : ℚ := ((cs.filter (fun c => c.evidence.length > 0)).length : ℚ) / n
    let positioningFactor : ℚ := ((cs.filter (fun c => c.positioning.length > 10)).length : ℚ) / n
    (countFactor + avgScore + evidenceFactor + positioningFactor) / 4

/-- The `forEach` that renumbers ranks: element `i` (0-based) of the list
gets `rank = i + 1`. -/
def renumberFrom (i : Nat) : List Competitor → List Competitor
  | [] => []
  | c :: rest => { c with rank := some i } :: renumberFrom (i + 1) rest

/-- `_validateAndFinalize(llmResult, businessIdentity, seedKeywords)`:
stamp identity fields, truncate the competitor list to 3, renumber ranks
1..k in list order, then compute the overall confidence. -/
def validateAndFinalize (r : LlmResult) (businessName : Option String)
    (seedKeywords : List String) : Analysis :=
  let a0 := r.parsed.getD (getEmptyAnalysis businessName)
  let a1 := { a0 with
      phase := some ("phase4_competitor_analysis")
    , business_id := some (match businessName with
        | some s => if s = ("") then ("unknown") else s
        | none => ("unknown"))
    , seed_keywords := some seedKeywords }
  let a2 := { a1 with
      competitors := match a1.competitors with
        | some cs => some (renumberFrom 1 (cs.take 3))
        | none => none }
  { a2 with overall_confidence := some (calculateOverallConfidence a2) }

/-- `analyze(businessIdentity, serpData, competitorSiteData, options)`
with the model outcome explicit.  `_scoreCompetitors` and
`_enrichCompetitorData` only select which candidates are described in
the prompt the black-box model consumes, so they do not appear in the
returned value and are elided; `businessName` and the seed-keyword
inputs are the projections of `businessIdentity` the code reads. -/
def analyze (envValue : Option String) (businessName : Option String)
    (category : Option String) (offeringNames : List String) (city : Option String)
    (providedKeywords : List String) (m : Except String LlmResult) : Analysis :=
  if !(FeatureFlag.isEnabled envValue) then getEmptyAnalysis businessName
  else
    let seedKeywords := generateSeedKeywords category offeringNames city providedKeywords
    match m with
    | Except.error e => getErrorAnalysis businessName e
    | Except.ok r => validateAndFinalize r businessName seedKeywords

/-- Structural completeness for the Phase-4 artifact. -/
def isCompleteAnalysis (a : Analysis) : Bool :=
  a.business_id.isSome && a.seed_keywords.isSome &&
  a.competitors.isSome && a.overall_confidence.isSome

end CompetitorAnalysisAgent

-- ═══════════════════════════════════════════════════════════════════
-- report_consolidator.js (ReportConsolidator) — source text as quoted
-- in ENHANCED_README.md
-- ═══════════════════════════════════════════════════════════════════

namespace ReportConsolidator

/-- A phase artifact as the consolidator's confidence calculation sees it:
only its `overall_confidence` is read (the field itself may be absent). -/
structure PhaseArtifact where
  overall_confidence : Option ℚ
deriving DecidableEq, Repr

/-- The truthiness test `phaseN?.overall_confidence`: the artifact is
present and carries a nonzero confidence. -/
def confSignal (p : Option PhaseArtifact) : Option ℚ :=
  match p with
  | none => none
  | some a =>
    match a.overall_confidence with
    | none => none
    | some c => if c ≠ 0 then some c else none

/-- `_calculateOverallConfidence(phase1, phase2, phase3, phase4)`:
fixed weights 0.35 / 0.20 / 0.25 / 0.20; a phase whose
`overall_confidence` is falsy is pushed neither as value nor as weight;
empty contribution list gives 0, else weighted sum over total pushed
weight. -/
def calculateOverallConfidence (p1 p2 p3 p4 : Option PhaseArtifact) : ℚ :=
  let entries : List (Option ℚ × ℚ) :=
    [(confSignal p1, (35 : ℚ)/100), (confSignal p2, (20 : ℚ)/100),
     (confSignal p3, (25 : ℚ)/100), (confSignal p4, (20 : ℚ)/100)]
  let confidences : List (ℚ × ℚ) :=
    entries.filterMap (fun e => e.1.map (fun v => (v, e.2)))
  if confidences.length = 0 then 0
  else
    let totalWeight := (confidences.map (fun c => c.2)).sum
    let weightedSum := (confidences.map (fun c => c.1 * c.2)).sum
    weightedSum / totalWeight

/-- Modelled from the spec: `overall = Σ(confidence_i × weight_i) /
Σ(weight_i)` over the set of PRESENT phases i — a present artifact
counts with its weight even when its confidence is 0 or absent (the
spec's formula conditions only on presence).  Stated for comparison
with `calculateOverallConfidence` above. -/
def specConsolidatedConfidence (p1 p2 p3 p4 : Option PhaseArtifact) : ℚ :=
  let entries : List (Option PhaseArtifact × ℚ) :=
    [(p1, (35 : ℚ)/100), (p2, (20 : ℚ)/100), (p3, (25 : ℚ)/100), (p4, (20 : ℚ)/100)]
  let present : List (ℚ × ℚ) :=
    entries.filterMap (fun e => e.1.map (fun a => (a.overall_confidence.getD 0, e.2)))
  if present.length = 0 then 0
  else
    let totalWeight := (present.map (fun c => c.2)).sum
    let weightedSum := (present.map (fun c => c.1 * c.2)).sum
    weightedSum / totalWeight

end ReportConsolidator

-- ═══════════════════════════════════════════════════════════════════
-- enhanced_orchestrator.js (EnhancedMarketOrchestrator)
-- ═══════════════════════════════════════════════════════════════════

namespace EnhancedMarketOrchestrator

/-- `config.humanPacing` as `_humanDelay` reads it. -/
structure HumanPacing where
  enabled : Option Bool
  minDelayMs : Option Nat
  maxDelayMs : Option Nat
deriving DecidableEq, Repr

structure Config where
  humanPacing : Option HumanPacing
deriving DecidableEq, Repr

/-- The guard of `_humanDelay`: `if (!this.config?.humanPacing?.enabled)
return;` — the randomized delay runs only when this is `true`. -/
def humanDelayApplies (config : Option Config) : Bool :=
  match config with
  | none => false
  | some cfg =>
    match cfg.humanPacing with
    | none => false
    | some hp => hp.enabled = some true

/-- The single mutable checkpoint slot `{phase, data, timestamp}`
(timestamp elided; `data` carried as the abstract payload string). -/
structure Checkpoint where
  phase : String
  data : String
deriving DecidableEq, Repr

/-- Orchestrator checkpoint state, instrumented with the chronological
list of `_saveCheckpoint` calls so that overwrite behaviour is
observable. -/
structure RunState where
  checkpoint : Option Checkpoint
  checkpointTrace : List String
deriving DecidableEq, Repr

def initState : RunState := { checkpoint := none, checkpointTrace := [] }

/-- `_saveCheckpoint(phase, data)`: overwrite the slot. -/
def saveCheckpoint (phase data : String) (st : RunState) : RunState :=
  { checkpoint := some { phase := phase, data := data }
  , checkpointTrace := st.checkpointTrace ++ [phase] }

/-- Behaviour of the collaborators one `execute` run interacts with.
Each phase agent call, the consolidation and the output writing are
black boxes that either return (payloads abstracted to strings) or
raise. -/
structure Collab where
  initResult : Except String Unit
  phase1 : Except String String
  phase2 : Except String String
  phase3 : Except String String
  phase4 : Except String String
  consolidation : Except String String
  writeResult : Except String Unit

/-- One guarded phase step of `execute`: when the sub-feature flag is on,
run the phase (an exception aborts, carrying the state reached so far);
the skip branch only logs.  On completion the checkpoint is saved. -/
def stepPhase (enabled : Bool) (outcome : Except String String)
    (phaseName : String) (st : RunState) : Except (String × RunState) RunState :=
  if enabled then
    match outcome with
    | Except.ok d => Except.ok (saveCheckpoint phaseName d st)
    | Except.error e => Except.error (e, st)
  else Except.ok st

/-- `execute(input)`: feature-flag gate, API-key gate, then the four
guarded phases in order, consolidation (checkpointed on return), output
writing; any exception inside the `try` is routed to
`_handleFatalError`, which logs (with the last checkpoint) and returns
`null`.  Result: the consolidated report or `none`, plus the final
checkpoint state. -/
def execute (envValue : Option String) (table : FeatureFlag.FlagTable)
    (hasApiKey : Bool) (c : Collab) : Option String × RunState :=
  if !(FeatureFlag.isEnabled envValue) then (none, initState)
  else if !hasApiKey then (none, initState)
  else
    match c.initResult with
    | Except.error _ => (none, initState)
    | Except.ok _ =>
      match stepPhase (FeatureFlag.isSubFeatureEnabledIn envValue table (some ("WEBSITE_EXTRACTION")))
          c.phase1 ("phase1") initState with
      | Except.error (_, st) => (none, st)
      | Except.ok st1 =>
        match stepPhase (FeatureFlag.isSubFeatureEnabledIn envValue table (some ("EXTERNAL_PRESENCE")))
            c.phase2 ("phase2") st1 with
        | Except.error (_, st) => (none, st)
        | Except.ok st2 =>
          match stepPhase (FeatureFlag.isSubFeatureEnabledIn envValue table (some ("MARKETING_CONVERSION")))
              c.phase3 ("phase3") st2 with
          | Except.error (_, st) => (none, st)
          | Except.ok st3 =>
            match stepPhase (FeatureFlag.isSubFeatureEnabledIn envValue table (some ("COMPETITOR_ANALYSIS")))
                c.phase4 ("phase4") st3 with
            | Except.error (_, st) => (none, st)
            | Except.ok st4 =>
              match c.consolidation with
              | Except.error _ => (none, st4)
              | Except.ok report =>
                let st5 := saveCheckpoint ("consolidation") report st4
                match c.writeResult with
                | Except.error _ => (none, st5)
                | Except.ok _ => (some report, st5)

end EnhancedMarketOrchestrator

-- ═══════════════════════════════════════════════════════════════════
-- Concrete fixtures used by witnesses and counterexamples
-- ═══════════════════════════════════════════════════════════════════

/-- A model collaborator whose every attempt raises. -/
def alwaysFail : OpenRouterClient.ModelBehavior :=
  fun _ _ => Except.error ("model unavailable")

/-- The client's embedded `_getDefaultConfig()`: `maxRetries: 3`, a
`default` phase entry with Claude primary and GPT fallback. -/
def defaultClientConfig : OpenRouterClient.ClientConfig :=
  { maxRetries := some 3
  , phases := []
  , defaultPhase := some { primaryModel := ("anthropic/claude-sonnet-4")
                         , fallbackModel := some ("openai/gpt-4.1") } }

/-- A flag table equal to the source's `FEATURE_FLAG` except that Phase 1
is switched off. -/
def tablePhase1Off : FeatureFlag.FlagTable :=
  [(("WEBSITE_EXTRACTION_ENABLED"), false),
   (("EXTERNAL_PRESENCE_ENABLED"), true),
   (("MARKETING_CONVERSION_ENABLED"), true),
   (("COMPETITOR_ANALYSIS_ENABLED"), true)]

/-- Collaborators that all succeed. -/
def collabAllOk : EnhancedMarketOrchestrator.Collab :=
  { initResult := Except.ok ()
  , phase1 := Except.ok ("artifact1")
  , phase2 := Except.ok ("artifact2")
  , phase3 := Except.ok ("artifact3")
  , phase4 := Except.ok ("artifact4")
  , consolidation := Except.ok ("report")
  , writeResult := Except.ok () }

/-- A model-returned competitor with a given name (rank/score/evidence
as the model typically supplies them). -/
def mkCompetitor (nm dom : String) : CompetitorAnalysisAgent.Competitor :=
  { name := nm, domain := dom, rank := none, score := some ((1 : ℚ)/2)
  , evidence := [], positioning := ("established local provider with breadth") }

/-- Four model-returned competitors (more than the cap). -/
def competitorsEx : List CompetitorAnalysisAgent.Competitor :=
  [mkCompetitor ("Alpha") ("alpha.test"), mkCompetitor ("Beta") ("beta.test"),
   mkCompetitor ("Gamma") ("gamma.test"), mkCompetitor ("Delta") ("delta.test")]

/-- A parsed Phase-4 model payload carrying those competitors. -/
def analysisEx : CompetitorAnalysisAgent.Analysis :=
  { phase := none, business_id := none, seed_keywords := none
  , competitors := some competitorsEx, overall_confidence := none
  , extraction_status := none, extraction_error := none }

def llm4Ex : CompetitorAnalysisAgent.LlmResult :=
  { parsed := some analysisEx, model := some ("openai/gpt-4.1") }

/-- A phase artifact either absent or carrying a nonzero (truthy)
`overall_confidence` — the situation in which the consolidator's
truthiness test coincides with plain presence. -/
def hasSignal (p : Option ReportConsolidator.PhaseArtifact) : Prop :=
  ∀ a, p = some a → ∃ c, a.overall_confidence = some c ∧ c ≠ 0

/-- A model-extracted name field at confidence 0.5. -/
def nEx : WebsiteExtractionAgent.NameField :=
  { value := ("Acme Corp"), confidence := some ((1 : ℚ)/2), sources := [] }

def bEx : WebsiteExtractionAgent.BusinessIdentity :=
  { name := some nEx, location := none, category := none }

/-- A parsed Phase-1 model payload carrying only the business name. -/
def pEx : WebsiteExtractionAgent.Profile :=
  { url := none, phase := none, business_identity := some bEx
  , primary_offerings := none, proof_assets := none, offer_structure := none
  , evidence := none, overall_confidence := none, extraction_status := none
  , extraction_error := none }

/-- The interval every confidence value is claimed to live in. -/
def inUnit (x : ℚ) : Prop := 0 ≤ x ∧ x ≤ 1

/-- Every model-supplied per-field confidence on a Phase-1 payload lies
in [0,1] (reading an absent confidence as its `|| 0` default). -/
def profileConfBounded (p : WebsiteExtractionAgent.Profile) : Prop :=
  (∀ bi n, p.business_identity = some bi → bi.name = some n →
    inUnit (n.confidence.getD 0)) ∧
  (∀ bi c, p.business_identity = some bi → bi.category = some c →
    inUnit (c.confidence.getD 0)) ∧
  (∀ l o, p.primary_offerings = some l → o ∈ l → inUnit (o.confidence.getD 0))

/-- A consolidator input whose carried confidence (if any) lies in [0,1]. -/
def artifactBounded (p : Option ReportConsolidator.PhaseArtifact) : Prop :=
  ∀ a c, p = some a → a.overall_confidence = some c → inUnit c

/-- Website data that triggers the description (generative-estimation)
path of Phase 1. -/
def wDescEx : WebsiteExtractionAgent.WebsiteData :=
  { url := some ("https://acme.test"), html := ("")
  , textContent := ("Business providing: plumbing services"), schemaOrg := none }

/-- A model payload carrying an out-of-range overall confidence. -/
def pBad : WebsiteExtractionAgent.Profile :=
  { url := none, phase := none, business_identity := none
  , primary_offerings := none, proof_assets := none, offer_structure := none
  , evidence := none, overall_confidence := some 5, extraction_status := none
  , extraction_error := none }

-- ═══════════════════════════════════════════════════════════════════
-- C10
-- ═══════════════════════════════════════════════════════════════════

/-- C10: the master kill switch dominates every sub-feature flag — for
every feature name (including the `null` one the `catch` absorbs), when
`isEnabled()` is `false` so is `isSubFeatureEnabled(s)`; and a `null`
feature name yields `false` rather than an exception even when the
entity is enabled. -/
theorem c10_master_switch_dominates :
    (∀ (envValue : Option String) (featureName : Option String),
      FeatureFlag.isEnabled envValue = false →
      FeatureFlag.isSubFeatureEnabled envValue featureName = false) ∧
    (∀ envValue : Option String,
      FeatureFlag.isSubFeatureEnabled envValue none = false) := by
  constructor
  · intro envValue featureName h
    simp [FeatureFlag.isSubFeatureEnabled, FeatureFlag.isSubFeatureEnabledIn, h]
  · intro envValue
    cases h : FeatureFlag.isEnabled envValue <;>
      simp [FeatureFlag.isSubFeatureEnabled, FeatureFlag.isSubFeatureEnabledIn, h]

/-- Witness for C10 at the concrete disabling value `MARKET_INTEL_ENABLED=0`. -/
theorem c10_witness :
    FeatureFlag.isEnabled (some ("0")) = false ∧
    FeatureFlag.isSubFeatureEnabled (some ("0")) (some ("AI_ANALYSIS")) = false :=
  ⟨by decide, c10_master_switch_dominates.1 (some ("0")) (some ("AI_ANALYSIS")) (by decide)⟩

-- ═══════════════════════════════════════════════════════════════════
-- C8
-- ═══════════════════════════════════════════════════════════════════

/-- C8 counterexample: with the entity enabled, a phase flag absent from
the flag table makes `isSubFeatureEnabled` return `false` (the phase is
skipped), and a pacing configuration without the `enabled` key disables
the inter-phase delay — both default to DISABLED, not to enabled as the
claim states. -/
theorem c8_counterexample :
    FeatureFlag.isEnabled none = true ∧
    FeatureFlag.isSubFeatureEnabledIn none [] (some ("WEBSITE_EXTRACTION")) = false ∧
    EnhancedMarketOrchestrator.humanDelayApplies
      (some { humanPacing := some { enabled := none, minDelayMs := some 2000,
                                    maxDelayMs := some 7000 } }) = false := by
  refine ⟨by decide, by decide, by decide⟩

/-- C8 amended: an absent flag defaults to disabled — a feature name whose
`<NAME>_ENABLED` key is missing from the flag table is reported disabled,
and `_humanDelay` inserts no delay when `humanPacing.enabled` is absent
(or the whole pacing/config object is). -/
theorem c8_absent_flags_default_disabled :
    (∀ (envValue : Option String) (table : FeatureFlag.FlagTable) (name : String),
      FeatureFlag.lookupFlag table (FeatureFlag.toUpperCase name ++ "_ENABLED") = none →
      FeatureFlag.isSubFeatureEnabledIn envValue table (some name) = false) ∧
    (∀ (cfg : EnhancedMarketOrchestrator.Config)
       (hp : EnhancedMarketOrchestrator.HumanPacing),
      cfg.humanPacing = some hp → hp.enabled = none →
      EnhancedMarketOrchestrator.humanDelayApplies (some cfg) = false) ∧
    EnhancedMarketOrchestrator.humanDelayApplies none = false := by
  refine ⟨?_, ?_, rfl⟩
  · intro envValue table name h
    cases he : FeatureFlag.isEnabled envValue <;>
      simp [FeatureFlag.isSubFeatureEnabledIn, he, h]
  · intro cfg hp hc he
    simp [EnhancedMarketOrchestrator.humanDelayApplies, hc, he]

/-- Witness for C8 amended at a table missing the Phase-2 key and a pacing
block missing `enabled`. -/
theorem c8_witness :
    FeatureFlag.isSubFeatureEnabledIn none tablePhase1Off (some ("SERP_DISCOVERY")) = false ∧
    EnhancedMarketOrchestrator.humanDelayApplies
      (some { humanPacing := some { enabled := none, minDelayMs := none,
                                    maxDelayMs := none } }) = false :=
  ⟨c8_absent_flags_default_disabled.1 none tablePhase1Off ("SERP_DISCOVERY") (by decide),
   c8_absent_flags_default_disabled.2.1
     { humanPacing := some { enabled := none, minDelayMs := none, maxDelayMs := none } }
     { enabled := none, minDelayMs := none, maxDelayMs := none } rfl rfl⟩

-- ═══════════════════════════════════════════════════════════════════
-- C5
-- ═══════════════════════════════════════════════════════════════════

/-- C5 counterexample: a run with Phase 1 feature-disabled and every
collaborator succeeding writes checkpoints for phases 2–4 and the
consolidation only — no checkpoint reflecting the skipped phase 1 is
ever written, contradicting the claim that the slot is overwritten after
every skipped phase as well. -/
theorem c5_counterexample :
    (EnhancedMarketOrchestrator.execute none tablePhase1Off true collabAllOk).2.checkpointTrace
      = [("phase2"), ("phase3"), ("phase4"), ("consolidation")] ∧
    ("phase1") ∉
      (EnhancedMarketOrchestrator.execute none tablePhase1Off true collabAllOk).2.checkpointTrace := by
  refine ⟨by decide, by decide⟩

/-- C5 amended: the checkpoint slot `{phase, data, timestamp}` is
overwritten after every completed (enabled) phase with that phase's name
and artifact, while a skipped (feature-disabled) phase leaves the
checkpoint state entirely unchanged; after a run in which all four
phases and the consolidation complete, the slot has been overwritten
five times, ending at the consolidation. -/
theorem c5_checkpoint_on_completed_only :
    (∀ (outcome : Except String String) (phaseName d : String)
       (st : EnhancedMarketOrchestrator.RunState),
      outcome = Except.ok d →
      EnhancedMarketOrchestrator.stepPhase true outcome phaseName st =
        Except.ok { checkpoint := some { phase := phaseName, data := d }
                  , checkpointTrace := st.checkpointTrace ++ [phaseName] }) ∧
    (∀ (outcome : Except String String) (phaseName : String)
       (st : EnhancedMarketOrchestrator.RunState),
      EnhancedMarketOrchestrator.stepPhase false outcome phaseName st = Except.ok st) ∧
    (EnhancedMarketOrchestrator.execute none FeatureFlag.FEATURE_FLAG true collabAllOk).2.checkpointTrace
      = [("phase1"), ("phase2"), ("phase3"), ("phase4"), ("consolidation")] := by
  refine ⟨?_, ?_, by decide⟩
  · intro outcome phaseName d st h
    subst h
    rfl
  · intro outcome phaseName st
    rfl

/-- Witness for C5 amended: a concrete completed phase overwrites the slot. -/
theorem c5_witness :
    EnhancedMarketOrchestrator.stepPhase true (Except.ok ("a1")) ("phase1")
      EnhancedMarketOrchestrator.initState =
    Except.ok { checkpoint := some { phase := ("phase1"), data := ("a1") }
              , checkpointTrace := [("phase1")] } :=
  c5_checkpoint_on_completed_only.1 (Except.ok ("a1")) ("phase1") ("a1")
    EnhancedMarketOrchestrator.initState rfl

-- ═══════════════════════════════════════════════════════════════════
-- C4
-- ═══════════════════════════════════════════════════════════════════

/-- C4 counterexample: with the default configuration (maxRetries 3,
fallback configured) and a model that always fails, the fallback model is
attempted 3 times — the same retry loop as the primary — not exactly
once as the claim states. -/
theorem c4_counterexample :
    (OpenRouterClient.complete defaultClientConfig alwaysFail
        ("phase1_website_extraction")).2.2 = 3 ∧
    (OpenRouterClient.complete defaultClientConfig alwaysFail
        ("phase1_website_extraction")).2.2 ≠ 1 := by
  refine ⟨by decide, by decide⟩

/-- C4 amended: when the primary model's retry attempts are exhausted,
`complete` runs the configured fallback model through the same retry
loop (`_executeCompletion`, up to maxRetries attempts), returning its
success if any attempt succeeds; when no fallback model is configured
the primary model's failure is raised instead. -/
theorem c4_fallback_uses_retry_loop (cfg : OpenRouterClient.ClientConfig)
    (beh : OpenRouterClient.ModelBehavior) (phase : String) (pe : String) (n : Nat)
    (h : OpenRouterClient.executeCompletion beh (OpenRouterClient.effectiveMaxRetries cfg)
      (OpenRouterClient.phaseConfigFor cfg phase).primaryModel = (Except.error pe, n)) :
    ((OpenRouterClient.phaseConfigFor cfg phase).fallbackModel = none →
      OpenRouterClient.complete cfg beh phase = (Except.error pe, (n, 0))) ∧
    (∀ fb, (OpenRouterClient.phaseConfigFor cfg phase).fallbackModel = some fb →
      (OpenRouterClient.complete cfg beh phase).2 =
        (n, (OpenRouterClient.executeCompletion beh
              (OpenRouterClient.effectiveMaxRetries cfg) fb).2) ∧
      (∀ r m, OpenRouterClient.executeCompletion beh
          (OpenRouterClient.effectiveMaxRetries cfg) fb = (Except.ok r, m) →
        (OpenRouterClient.complete cfg beh phase).1 = Except.ok r)) := by
  constructor
  · intro hf
    simp [OpenRouterClient.complete, h, hf]
  · intro fb hf
    constructor
    · rcases hr : OpenRouterClient.executeCompletion beh
        (OpenRouterClient.effectiveMaxRetries cfg) fb with ⟨res, m⟩
      cases res <;> simp [OpenRouterClient.complete, h, hf, hr]
    · intro r m hok
      simp [OpenRouterClient.complete, h, hf, hok]

/-- Witness for C4 amended: the default config's fallback goes through the
full retry loop (3 attempts) on the always-failing behaviour. -/
theorem c4_witness :
    (OpenRouterClient.complete defaultClientConfig alwaysFail ("w")).2 =
      (3, (OpenRouterClient.executeCompletion alwaysFail
            (OpenRouterClient.effectiveMaxRetries defaultClientConfig)
            ("openai/gpt-4.1")).2) :=
  ((c4_fallback_uses_retry_loop defaultClientConfig alwaysFail ("w")
      ("model unavailable") 3 (by rfl)).2 ("openai/gpt-4.1") (by rfl)).1

-- ═══════════════════════════════════════════════════════════════════
-- C3
-- ═══════════════════════════════════════════════════════════════════

/-- C3: for every environment, flag table, API-key presence and
collaborator behaviour (each phase call, the consolidation and the
output writing may return or raise arbitrarily), `execute` returns
either the Consolidated Report produced by a successful consolidation or
`null` — never a partially built result; an exception in any step is
absorbed by the top-level handler (modelled by `execute` being a total
function into `Option`), which leaves the last saved checkpoint in the
final state. -/
theorem c3_execute_report_or_null
    (envValue : Option String) (table : FeatureFlag.FlagTable)
    (hasApiKey : Bool) (c : EnhancedMarketOrchestrator.Collab) :
    (EnhancedMarketOrchestrator.execute envValue table hasApiKey c).1 = none ∨
    ∃ r, c.consolidation = Except.ok r ∧
      (EnhancedMarketOrchestrator.execute envValue table hasApiKey c).1 = some r := by
  unfold EnhancedMarketOrchestrator.execute
  repeat' split
  all_goals simp_all

-- ═══════════════════════════════════════════════════════════════════
-- helper lemmas about rank renumbering (Phase 4)
-- ═══════════════════════════════════════════════════════════════════

lemma renumberFrom_length (k : Nat) (l : List CompetitorAnalysisAgent.Competitor) :
    (CompetitorAnalysisAgent.renumberFrom k l).length = l.length := by
  induction l generalizing k with
  | nil => rfl
  | cons c rest ih => simp [CompetitorAnalysisAgent.renumberFrom, ih]

lemma renumberFrom_get (k : Nat) (l : List CompetitorAnalysisAgent.Competitor)
    (i : Nat) (h : i < (CompetitorAnalysisAgent.renumberFrom k l).length) :
    ((CompetitorAnalysisAgent.renumberFrom k l).get ⟨i, h⟩).rank = some (k + i) := by
  induction l generalizing k i with
  | nil => simp [CompetitorAnalysisAgent.renumberFrom] at h
  | cons c rest ih =>
    cases i with
    | zero => simp [CompetitorAnalysisAgent.renumberFrom]
    | succ j =>
      have h2 : j < (CompetitorAnalysisAgent.renumberFrom (k + 1) rest).length := by
        simpa [CompetitorAnalysisAgent.renumberFrom] using h
      have := ih (k + 1) j h2
      simpa [CompetitorAnalysisAgent.renumberFrom, Nat.add_assoc, Nat.add_comm 1 j]
        using this

lemma validateAndFinalize_competitors_shape
    (r : CompetitorAnalysisAgent.LlmResult) (bn : Option String) (sk : List String) :
    (CompetitorAnalysisAgent.validateAndFinalize r bn sk).competitors =
      (r.parsed.getD (CompetitorAnalysisAgent.getEmptyAnalysis bn)).competitors.map
        (fun cs => CompetitorAnalysisAgent.renumberFrom 1 (cs.take 3)) := by
  unfold CompetitorAnalysisAgent.validateAndFinalize
  rcases hcs : (r.parsed.getD (CompetitorAnalysisAgent.getEmptyAnalysis bn)).competitors
    with _ | cs <;> simp [hcs]

-- ═══════════════════════════════════════════════════════════════════
-- C7
-- ═══════════════════════════════════════════════════════════════════

/-- C7: whatever competitor list the model returns, the finalized Phase-4
artifact truncates it to the first 3 entries and renumbers ranks 1..k in
list order, with k = min(3, number of model-returned competitors); any
competitor list in a finalized artifact has length at most 3. -/
theorem c7_competitor_cap :
    (∀ (r : CompetitorAnalysisAgent.LlmResult) (bn : Option String) (sk : List String)
       (a : CompetitorAnalysisAgent.Analysis) (cs : List CompetitorAnalysisAgent.Competitor),
      r.parsed = some a → a.competitors = some cs →
      (CompetitorAnalysisAgent.validateAndFinalize r bn sk).competitors =
        some (CompetitorAnalysisAgent.renumberFrom 1 (cs.take 3)) ∧
      (CompetitorAnalysisAgent.renumberFrom 1 (cs.take 3)).length = min 3 cs.length ∧
      (∀ i (h : i < (CompetitorAnalysisAgent.renumberFrom 1 (cs.take 3)).length),
        ((CompetitorAnalysisAgent.renumberFrom 1 (cs.take 3)).get ⟨i, h⟩).rank =
          some (i + 1))) ∧
    (∀ (r : CompetitorAnalysisAgent.LlmResult) (bn : Option String) (sk : List String)
       (l : List CompetitorAnalysisAgent.Competitor),
      (CompetitorAnalysisAgent.validateAndFinalize r bn sk).competitors = some l →
      l.length ≤ 3) := by
  constructor
  · intro r bn sk a cs hp hc
    refine ⟨?_, ?_, ?_⟩
    · rw [validateAndFinalize_competitors_shape, hp]
      simp [hc]
    · rw [renumberFrom_length, List.length_take]
    · intro i h
      rw [renumberFrom_get]
      rw [Nat.add_comm]
  · intro r bn sk l h
    rw [validateAndFinalize_competitors_shape] at h
    rcases hcs : (r.parsed.getD (CompetitorAnalysisAgent.getEmptyAnalysis bn)).competitors
      with _ | cs
    · rw [hcs] at h
      exact absurd h (by simp)
    · rw [hcs] at h
      simp only [Option.map_some', Option.some_inj] at h
      subst h
      rw [renumberFrom_length, List.length_take]
      exact min_le_left 3 cs.length

/-- Witness for C7 at four model-returned competitors: the finalized list
is the renumbered 3-element truncation. -/
theorem c7_witness :
    (CompetitorAnalysisAgent.validateAndFinalize llm4Ex none []).competitors =
      some (CompetitorAnalysisAgent.renumberFrom 1 (competitorsEx.take 3)) ∧
    (CompetitorAnalysisAgent.renumberFrom 1 (competitorsEx.take 3)).length =
      min 3 competitorsEx.length := by
  have h := c7_competitor_cap.1 llm4Ex none [] analysisEx competitorsEx rfl rfl
  exact ⟨h.1, h.2.1⟩

-- ═══════════════════════════════════════════════════════════════════
-- C1
-- ═══════════════════════════════════════════════════════════════════

lemma confSignal_map_eq (p : Option ReportConsolidator.PhaseArtifact)
    (h : hasSignal p) (w : ℚ) :
    Option.map (fun v => (v, w)) (ReportConsolidator.confSignal p) =
      Option.map (fun a => (a.overall_confidence.getD 0, w)) p := by
  cases p with
  | none => rfl
  | some a =>
    obtain ⟨c, hc, hne⟩ := h a rfl
    simp [ReportConsolidator.confSignal, hc, hne]

/-- C1 counterexample: the consolidator's truthiness test drops a PRESENT
phase whose `overall_confidence` is 0 from numerator AND denominator,
whereas the claim's formula keeps every present phase's weight.  With
phase 1 present at confidence 0 and phase 3 present at 0.6, the code
yields 0.6 while the claimed renormalized weighted average yields
(0·0.35 + 0.6·0.25)/(0.35+0.25) = 0.25. -/
theorem c1_counterexample :
    ReportConsolidator.calculateOverallConfidence
      (some { overall_confidence := some 0 }) none
      (some { overall_confidence := some ((6 : ℚ)/10) }) none = (6 : ℚ)/10 ∧
    ReportConsolidator.specConsolidatedConfidence
      (some { overall_confidence := some 0 }) none
      (some { overall_confidence := some ((6 : ℚ)/10) }) none = (1 : ℚ)/4 ∧
    ReportConsolidator.calculateOverallConfidence
      (some { overall_confidence := some 0 }) none
      (some { overall_confidence := some ((6 : ℚ)/10) }) none ≠
    ReportConsolidator.specConsolidatedConfidence
      (some { overall_confidence := some 0 }) none
      (some { overall_confidence := some ((6 : ℚ)/10) }) none := by
  refine ⟨by
      simp only [ReportConsolidator.calculateOverallConfidence,
        ReportConsolidator.specConsolidatedConfidence, ReportConsolidator.confSignal]
      norm_num [List.filterMap], by
      simp only [ReportConsolidator.calculateOverallConfidence,
        ReportConsolidator.specConsolidatedConfidence, ReportConsolidator.confSignal]
      norm_num [List.filterMap], by
      simp only [ReportConsolidator.calculateOverallConfidence,
        ReportConsolidator.specConsolidatedConfidence, ReportConsolidator.confSignal]
      norm_num [List.filterMap]⟩

/-- C1 amended: the consolidated overall confidence equals the weighted
average with weights 0.35/0.20/0.25/0.20 renormalized over the phases
that CONTRIBUTE, where a phase contributes exactly when it is present
with a truthy (nonzero) `overall_confidence`; on inputs whose present
phases all carry nonzero confidence this coincides with the claim's
formula over present phases, and in particular phases {1,3} with 0.8 and
0.6 give (0.8·0.35 + 0.6·0.25)/(0.35+0.25) = 43/60 ≈ 0.7167. -/
theorem c1_renormalized_weighting :
    (∀ p1 p2 p3 p4 : Option ReportConsolidator.PhaseArtifact,
      hasSignal p1 → hasSignal p2 → hasSignal p3 → hasSignal p4 →
      ReportConsolidator.calculateOverallConfidence p1 p2 p3 p4 =
        ReportConsolidator.specConsolidatedConfidence p1 p2 p3 p4) ∧
    ReportConsolidator.calculateOverallConfidence
      (some { overall_confidence := some ((8 : ℚ)/10) }) none
      (some { overall_confidence := some ((6 : ℚ)/10) }) none = (43 : ℚ)/60 := by
  constructor
  · intro p1 p2 p3 p4 h1 h2 h3 h4
    unfold ReportConsolidator.calculateOverallConfidence
      ReportConsolidator.specConsolidatedConfidence
    simp only [List.filterMap]
    rw [confSignal_map_eq p1 h1, confSignal_map_eq p2 h2,
        confSignal_map_eq p3 h3, confSignal_map_eq p4 h4]
  · simp only [ReportConsolidator.calculateOverallConfidence,
      ReportConsolidator.confSignal]
    norm_num [List.filterMap]

/-- Witness for C1 amended at the claim's own example (phases {1,3} with
confidences 0.8 and 0.6): code and claimed formula agree. -/
theorem c1_witness :
    ReportConsolidator.calculateOverallConfidence
      (some { overall_confidence := some ((8 : ℚ)/10) }) none
      (some { overall_confidence := some ((6 : ℚ)/10) }) none =
    ReportConsolidator.specConsolidatedConfidence
      (some { overall_confidence := some ((8 : ℚ)/10) }) none
      (some { overall_confidence := some ((6 : ℚ)/10) }) none :=
  c1_renormalized_weighting.1 _ _ _ _
    (fun a ha => ⟨(8 : ℚ)/10, by cases ha; rfl, by norm_num⟩)
    (fun a ha => by cases ha)
    (fun a ha => ⟨(6 : ℚ)/10, by cases ha; rfl, by norm_num⟩)
    (fun a ha => by cases ha)


-- ═══════════════════════════════════════════════════════════════════
-- C9
-- ═══════════════════════════════════════════════════════════════════

/-- C9: in Phase-1 reconciliation, whenever the schema.org name and the
model-extracted business name are both present (truthy) and the
symmetric equality/containment similarity check scores above 0.8, the
name's confidence is raised by exactly +0.2, capped at 1.0, and a
schema.org source reference is appended; when the similarity check does
not exceed 0.8, `business_identity` (hence the name confidence) is left
exactly as the model produced it. -/
theorem c9_schema_name_boost :
    (∀ (r : WebsiteExtractionAgent.LlmResult)
       (schema : WebsiteExtractionAgent.SchemaOrgData) (url : Option String)
       (p : WebsiteExtractionAgent.Profile)
       (b : WebsiteExtractionAgent.BusinessIdentity)
       (n : WebsiteExtractionAgent.NameField) (sn : String),
      r.parsed = some p → p.business_identity = some b → b.name = some n →
      schema.name = some sn → sn ≠ ("") → n.value ≠ ("") →
      WebsiteExtractionAgent.similarityScore sn n.value > (8 : ℚ)/10 →
      (WebsiteExtractionAgent.validateAndReconcile r (some schema) url).business_identity =
        some { b with name := some { n with
          confidence := some (min 1 (n.confidence.getD 0 + (2 : ℚ)/10))
        , sources := n.sources ++
            [{ url := url.getD ("")
             , selector := ("script[type=\x22application/ld+json\x22]")
             , srcType := some ("schema.org") }] } }) ∧
    (∀ (r : WebsiteExtractionAgent.LlmResult)
       (schema : WebsiteExtractionAgent.SchemaOrgData) (url : Option String)
       (p : WebsiteExtractionAgent.Profile)
       (b : WebsiteExtractionAgent.BusinessIdentity)
       (n : WebsiteExtractionAgent.NameField) (sn : String),
      r.parsed = some p → p.business_identity = some b → b.name = some n →
      schema.name = some sn →
      ¬ (WebsiteExtractionAgent.similarityScore sn n.value > (8 : ℚ)/10) →
      (WebsiteExtractionAgent.validateAndReconcile r (some schema) url).business_identity =
        p.business_identity) := by
  constructor
  · intro r schema url p b n sn hp hbi hn hsn hsne hnv hsim
    unfold WebsiteExtractionAgent.validateAndReconcile
      WebsiteExtractionAgent.reconcileName
    simp [hp, hbi, hn, hsn, hsne, hnv, hsim]
  · intro r schema url p b n sn hp hbi hn hsn hsim
    unfold WebsiteExtractionAgent.validateAndReconcile
      WebsiteExtractionAgent.reconcileName
    by_cases hsne : sn = ("")
    · simp [hp, hbi, hn, hsn, hsne]
    · by_cases hnv : n.value = ("")
      · simp [hp, hbi, hn, hsn, hsne, hnv]
      · simp [hp, hbi, hn, hsn, hsne, hnv, hsim]

/-- Witness for C9: schema.org name `acme corp` versus extracted name
`Acme Corp` at confidence 0.5 — equal after lowercasing, similarity 1,
boosted to 0.7 and capped at 1. -/
theorem c9_witness :
    (WebsiteExtractionAgent.validateAndReconcile
      { parsed := some pEx, model := none }
      (some { name := some ("acme corp") })
      (some ("https://acme.test"))).business_identity =
    some { bEx with name := some { nEx with
      confidence := some (min 1 (nEx.confidence.getD 0 + (2 : ℚ)/10))
    , sources := nEx.sources ++
        [{ url := (some ("https://acme.test")).getD ("")
         , selector := ("script[type=\x22application/ld+json\x22]")
         , srcType := some ("schema.org") }] } } := by
  have hsim : WebsiteExtractionAgent.similarityScore ("acme corp") nEx.value = 1 := rfl
  exact c9_schema_name_boost.1
    { parsed := some pEx, model := none } { name := some ("acme corp") }
    (some ("https://acme.test")) pEx bEx nEx ("acme corp")
    rfl rfl rfl rfl (by decide) (by decide) (by rw [hsim]; norm_num)

-- ═══════════════════════════════════════════════════════════════════
-- C2
-- ═══════════════════════════════════════════════════════════════════

/-- C2: for every input and every environment, when the model call fails
(raises), `WebsiteExtractionAgent.extract` and
`CompetitorAnalysisAgent.analyze` still return structurally complete
artifacts (no missing required keys): the exception is absorbed inside
the agent (both functions are total into the artifact type), and on
every path that reached the model the result is the empty artifact
annotated `extraction_status: "failed"` — on the no-content path it is
the plain empty artifact, no exception having been raised. -/
theorem c2_agents_total_on_model_failure :
    (∀ (envValue : Option String) (wd : Option WebsiteExtractionAgent.WebsiteData)
       (e : String),
      WebsiteExtractionAgent.isCompleteProfile
        (WebsiteExtractionAgent.extract envValue wd (Except.error e)) = true) ∧
    (∀ (envValue : Option String) (wd : Option WebsiteExtractionAgent.WebsiteData)
       (e : String),
      (WebsiteExtractionAgent.extract envValue wd (Except.error e)).extraction_status =
        some ("failed") ∨
      ∃ u, WebsiteExtractionAgent.extract envValue wd (Except.error e) =
        WebsiteExtractionAgent.getEmptyProfile u) ∧
    (∀ (envValue : Option String) (bn cat : Option String) (offs : List String)
       (city : Option String) (pks : List String) (e : String),
      CompetitorAnalysisAgent.isCompleteAnalysis
        (CompetitorAnalysisAgent.analyze envValue bn cat offs city pks
          (Except.error e)) = true) ∧
    (∀ (envValue : Option String) (bn cat : Option String) (offs : List String)
       (city : Option String) (pks : List String) (e : String),
      FeatureFlag.isEnabled envValue = true →
      CompetitorAnalysisAgent.analyze envValue bn cat offs city pks (Except.error e) =
        CompetitorAnalysisAgent.getErrorAnalysis bn e) := by
  refine ⟨?_, ?_, ?_, ?_⟩
  · intro envValue wd e
    unfold WebsiteExtractionAgent.extract
    dsimp only
    split
    · rfl
    · split
      · rfl
      · split
        · rfl
        · split
          · rfl
          · rfl
  · intro envValue wd e
    unfold WebsiteExtractionAgent.extract
    dsimp only
    split
    · right; exact ⟨_, rfl⟩
    · split
      · right; exact ⟨_, rfl⟩
      · split
        · left; rfl
        · split
          · left; rfl
          · right; exact ⟨_, rfl⟩
  · intro envValue bn cat offs city pks e
    unfold CompetitorAnalysisAgent.analyze
    split
    · rfl
    · rfl
  · intro envValue bn cat offs city pks e h
    unfold CompetitorAnalysisAgent.analyze
    simp [h]

/-- Witness for C2: with the entity enabled and a failing model the
Phase-4 agent returns the annotated empty artifact. -/
theorem c2_witness :
    CompetitorAnalysisAgent.analyze none (some ("Acme")) none [] none []
      (Except.error ("boom")) =
    CompetitorAnalysisAgent.getErrorAnalysis (some ("Acme")) ("boom") :=
  c2_agents_total_on_model_failure.2.2.2 none (some ("Acme")) none [] none []
    ("boom") rfl

-- ═══════════════════════════════════════════════════════════════════
-- helper lemmas for confidence bounds (C6)
-- ═══════════════════════════════════════════════════════════════════

lemma inUnit_zero : inUnit 0 := ⟨le_refl 0, by norm_num⟩

lemma nameConfOf_bounds (p : WebsiteExtractionAgent.Profile)
    (h : profileConfBounded p) : inUnit (WebsiteExtractionAgent.nameConfOf p) := by
  rcases hbi : p.business_identity with _ | bi
  · simp [WebsiteExtractionAgent.nameConfOf, hbi, inUnit_zero]
  · rcases hn : bi.name with _ | n
    · simp [WebsiteExtractionAgent.nameConfOf, hbi, hn, inUnit_zero]
    · have hb := h.1 bi n hbi hn
      simpa [WebsiteExtractionAgent.nameConfOf, hbi, hn] using hb

lemma catConfOf_bounds (p : WebsiteExtractionAgent.Profile)
    (h : profileConfBounded p) : inUnit (WebsiteExtractionAgent.catConfOf p) := by
  rcases hbi : p.business_identity with _ | bi
  · simp [WebsiteExtractionAgent.catConfOf, hbi, inUnit_zero]
  · rcases hc : bi.category with _ | c
    · simp [WebsiteExtractionAgent.catConfOf, hbi, hc, inUnit_zero]
    · have hb := h.2.1 bi c hbi hc
      simpa [WebsiteExtractionAgent.catConfOf, hbi, hc] using hb

lemma offeringScoreOf_bounds (p : WebsiteExtractionAgent.Profile) :
    inUnit (WebsiteExtractionAgent.offeringScoreOf p) := by
  rcases hl : p.primary_offerings with _ | l
  · simp [WebsiteExtractionAgent.offeringScoreOf, hl, inUnit_zero]
  · by_cases h0 : l.length > 0
    · simp only [WebsiteExtractionAgent.offeringScoreOf, hl, h0, if_pos]
      exact ⟨by norm_num, by norm_num⟩
    · simp [WebsiteExtractionAgent.offeringScoreOf, hl, h0, inUnit_zero]

lemma proofScoreOf_bounds (p : WebsiteExtractionAgent.Profile) :
    inUnit (WebsiteExtractionAgent.proofScoreOf p) := by
  rcases hl : p.proof_assets with _ | l
  · simp [WebsiteExtractionAgent.proofScoreOf, hl, inUnit_zero]
  · by_cases h0 : l.length > 0
    · simp only [WebsiteExtractionAgent.proofScoreOf, hl, h0, if_pos]
      exact ⟨by norm_num, by norm_num⟩
    · simp [WebsiteExtractionAgent.proofScoreOf, hl, h0, inUnit_zero]

lemma parseOverall_bounds (p : WebsiteExtractionAgent.Profile)
    (h : profileConfBounded p) :
    inUnit (WebsiteExtractionAgent.parseOverallConfidence p) := by
  obtain ⟨h1a, h1b⟩ := nameConfOf_bounds p h
  obtain ⟨h2a, h2b⟩ := catConfOf_bounds p h
  obtain ⟨h3a, h3b⟩ := offeringScoreOf_bounds p
  obtain ⟨h4a, h4b⟩ := proofScoreOf_bounds p
  unfold WebsiteExtractionAgent.parseOverallConfidence
  constructor
  · apply div_nonneg (by linarith) (by norm_num)
  · rw [div_le_one (by norm_num : (0 : ℚ) < 4)]
    linarith
lemma namePush_nonneg (p : WebsiteExtractionAgent.Profile)
    (h : profileConfBounded p) :
    ∀ x ∈ WebsiteExtractionAgent.namePush p, 0 ≤ x := by
  intro x hx
  rcases hbi : p.business_identity with _ | bi
  · simp [WebsiteExtractionAgent.namePush, hbi] at hx
  · rcases hn : bi.name with _ | n
    · simp [WebsiteExtractionAgent.namePush, hbi, hn] at hx
    · rcases hc : n.confidence with _ | c
      · simp [WebsiteExtractionAgent.namePush, hbi, hn, hc] at hx
      · by_cases h0 : c = 0
        · simp [WebsiteExtractionAgent.namePush, hbi, hn, hc, h0] at hx
        · simp [WebsiteExtractionAgent.namePush, hbi, hn, hc, h0] at hx
          subst hx
          have hb := h.1 bi n hbi hn
          rw [hc] at hb
          simp only [Option.getD_some] at hb
          have := hb.1
          positivity
lemma catPush_nonneg (p : WebsiteExtractionAgent.Profile)
    (h : profileConfBounded p) :
    ∀ x ∈ WebsiteExtractionAgent.catPush p, 0 ≤ x := by
  intro x hx
  rcases hbi : p.business_identity with _ | bi
  · simp [WebsiteExtractionAgent.catPush, hbi] at hx
  · rcases hn : bi.category with _ | c
    · simp [WebsiteExtractionAgent.catPush, hbi, hn] at hx
    · rcases hc : c.confidence with _ | v
      · simp [WebsiteExtractionAgent.catPush, hbi, hn, hc] at hx
      · by_cases h0 : v = 0
        · simp [WebsiteExtractionAgent.catPush, hbi, hn, hc, h0] at hx
        · simp [WebsiteExtractionAgent.catPush, hbi, hn, hc, h0] at hx
          subst hx
          have hb := h.2.1 bi c hbi hn
          rw [hc] at hb
          simpa using hb.1

lemma offeringPush_nonneg (p : WebsiteExtractionAgent.Profile)
    (h : profileConfBounded p) :
    ∀ x ∈ WebsiteExtractionAgent.offeringPush p, 0 ≤ x := by
  intro x hx
  rcases hl : p.primary_offerings with _ | l
  · simp [WebsiteExtractionAgent.offeringPush, hl] at hx
  · by_cases h0 : l.length > 0
    · simp [WebsiteExtractionAgent.offeringPush, hl, h0] at hx
      subst hx
      apply div_nonneg
      · apply List.sum_nonneg
        intro y hy
        rw [List.mem_map] at hy
        obtain ⟨o, ho, rfl⟩ := hy
        exact (h.2.2 l o hl ho).1
      · positivity
    · simp [WebsiteExtractionAgent.offeringPush, hl, h0] at hx

lemma proofPush_nonneg (p : WebsiteExtractionAgent.Profile) :
    ∀ x ∈ WebsiteExtractionAgent.proofPush p, 0 ≤ x := by
  intro x hx
  rcases hl : p.proof_assets with _ | l
  · simp [WebsiteExtractionAgent.proofPush, hl] at hx
  · by_cases h0 : l.length > 0
    · simp [WebsiteExtractionAgent.proofPush, hl, h0] at hx
      subst hx
      norm_num
    · simp [WebsiteExtractionAgent.proofPush, hl, h0] at hx

lemma reconcileOverall_bounds (p : WebsiteExtractionAgent.Profile)
    (h : profileConfBounded p) :
    inUnit (WebsiteExtractionAgent.reconcileOverallConfidence p) := by
  have hall : ∀ x ∈ WebsiteExtractionAgent.namePush p ++ WebsiteExtractionAgent.catPush p ++
      WebsiteExtractionAgent.offeringPush p ++ WebsiteExtractionAgent.proofPush p, 0 ≤ x := by
    intro x hx
    rcases List.mem_append.1 hx with hx' | hx4
    · rcases List.mem_append.1 hx' with hx'' | hx3
      · rcases List.mem_append.1 hx'' with hx1 | hx2
        · exact namePush_nonneg p h x hx1
        · exact catPush_nonneg p h x hx2
      · exact offeringPush_nonneg p h x hx3
    · exact proofPush_nonneg p x hx4
  unfold WebsiteExtractionAgent.reconcileOverallConfidence
  dsimp only
  split
  · exact inUnit_zero
  · constructor
    · apply le_min (by norm_num)
      apply div_nonneg (List.sum_nonneg hall)
      positivity
    · exact min_le_left _ _
lemma phase4Overall_bounds (a : CompetitorAnalysisAgent.Analysis)
    (cs : List CompetitorAnalysisAgent.Competitor)
    (hcs : a.competitors = some cs) (hlen : cs.length ≤ 3)
    (hs : ∀ c ∈ cs, inUnit (c.score.getD 0)) :
    inUnit (CompetitorAnalysisAgent.calculateOverallConfidence a) := by
  unfold CompetitorAnalysisAgent.calculateOverallConfidence
  rw [hcs]
  cases cs with
  | nil => exact inUnit_zero
  | cons c0 t =>
    dsimp only
    have hnpos : (0 : ℚ) < ((c0 :: t).length : ℚ) := by
      have : 0 < (c0 :: t).length := List.length_pos.2 (by simp)
      exact_mod_cast this
    have hf1a : (0 : ℚ) ≤ ((c0 :: t).length : ℚ) / 3 := by positivity
    have hf1b : ((c0 :: t).length : ℚ) / 3 ≤ 1 := by
      rw [div_le_one (by norm_num : (0 : ℚ) < 3)]
      exact_mod_cast hlen
    have hsum0 : (0 : ℚ) ≤ ((c0 :: t).map (fun c => c.score.getD 0)).sum := by
      apply List.sum_nonneg
      intro y hy
      rw [List.mem_map] at hy
      obtain ⟨c, hc, rfl⟩ := hy
      exact (hs c hc).1
    have hsum1 : ((c0 :: t).map (fun c => c.score.getD 0)).sum ≤ ((c0 :: t).length : ℚ) := by
      have := List.sum_le_card_nsmul ((c0 :: t).map (fun c => c.score.getD 0)) 1 (by
        intro y hy
        rw [List.mem_map] at hy
        obtain ⟨c, hc, rfl⟩ := hy
        exact (hs c hc).2)
      simpa [List.length_map, nsmul_eq_mul] using this
    have hf2a : (0 : ℚ) ≤ ((c0 :: t).map (fun c => c.score.getD 0)).sum / ((c0 :: t).length : ℚ) :=
      div_nonneg hsum0 hnpos.le
    have hf2b : ((c0 :: t).map (fun c => c.score.getD 0)).sum / ((c0 :: t).length : ℚ) ≤ 1 := by
      rw [div_le_one hnpos]
      exact hsum1
    have hf3a : (0 : ℚ) ≤ (((c0 :: t).filter (fun c => c.evidence.length > 0)).length : ℚ) /
        ((c0 :: t).length : ℚ) := by positivity
    have hf3b : (((c0 :: t).filter (fun c => c.evidence.length > 0)).length : ℚ) /
        ((c0 :: t).length : ℚ) ≤ 1 := by
      rw [div_le_one hnpos]
      exact_mod_cast List.length_filter_le _ _
    have hf4a : (0 : ℚ) ≤ (((c0 :: t).filter (fun c => c.positioning.length > 10)).length : ℚ) /
        ((c0 :: t).length : ℚ) := by positivity
    have hf4b : (((c0 :: t).filter (fun c => c.positioning.length > 10)).length : ℚ) /
        ((c0 :: t).length : ℚ) ≤ 1 := by
      rw [div_le_one hnpos]
      exact_mod_cast List.length_filter_le _ _
    constructor
    · apply div_nonneg (by linarith) (by norm_num)
    · rw [div_le_one (by norm_num : (0 : ℚ) < 4)]
      linarith
lemma confSignal_bounds (p : Option ReportConsolidator.PhaseArtifact)
    (hb : artifactBounded p) (v : ℚ)
    (hv : ReportConsolidator.confSignal p = some v) : inUnit v := by
  rcases p with _ | a
  · simp [ReportConsolidator.confSignal] at hv
  · rcases ha : a.overall_confidence with _ | c
    · simp [ReportConsolidator.confSignal, ha] at hv
    · by_cases h0 : c = 0
      · simp [ReportConsolidator.confSignal, ha, h0] at hv
      · simp [ReportConsolidator.confSignal, ha, h0] at hv
        subst hv
        exact hb a c rfl ha

lemma sum_snd_nonneg (l : List (ℚ × ℚ)) (h : ∀ x ∈ l, 0 < x.2) :
    0 ≤ (l.map (fun c => c.2)).sum := by
  apply List.sum_nonneg
  intro y hy
  rw [List.mem_map] at hy
  obtain ⟨x, hx, rfl⟩ := hy
  exact (h x hx).le

lemma sum_snd_pos (l : List (ℚ × ℚ)) (hne : l ≠ []) (h : ∀ x ∈ l, 0 < x.2) :
    0 < (l.map (fun c => c.2)).sum := by
  cases l with
  | nil => simp at hne
  | cons a t =>
    simp only [List.map_cons, List.sum_cons]
    have h1 := h a (List.mem_cons_self a t)
    have h2 := sum_snd_nonneg t (fun x hx => h x (List.mem_cons_of_mem a hx))
    linarith

lemma sum_mul_nonneg (l : List (ℚ × ℚ)) (h : ∀ x ∈ l, 0 ≤ x.1 ∧ 0 < x.2) :
    0 ≤ (l.map (fun c => c.1 * c.2)).sum := by
  apply List.sum_nonneg
  intro y hy
  rw [List.mem_map] at hy
  obtain ⟨x, hx, rfl⟩ := hy
  exact mul_nonneg (h x hx).1 (h x hx).2.le

lemma sum_mul_le_sum_snd (l : List (ℚ × ℚ))
    (h : ∀ x ∈ l, (0 ≤ x.1 ∧ x.1 ≤ 1) ∧ 0 < x.2) :
    (l.map (fun c => c.1 * c.2)).sum ≤ (l.map (fun c => c.2)).sum := by
  induction l with
  | nil => simp
  | cons a t ih =>
    simp only [List.map_cons, List.sum_cons]
    have ha := h a (List.mem_cons_self a t)
    have hrec := ih (fun x hx => h x (List.mem_cons_of_mem a hx))
    have hm : a.1 * a.2 ≤ a.2 := by
      calc a.1 * a.2 ≤ 1 * a.2 := mul_le_mul_of_nonneg_right ha.1.2 ha.2.le
      _ = a.2 := one_mul _
    linarith

lemma consolidatorOverall_bounds (p1 p2 p3 p4 : Option ReportConsolidator.PhaseArtifact)
    (h1 : artifactBounded p1) (h2 : artifactBounded p2)
    (h3 : artifactBounded p3) (h4 : artifactBounded p4) :
    inUnit (ReportConsolidator.calculateOverallConfidence p1 p2 p3 p4) := by
  unfold ReportConsolidator.calculateOverallConfidence
  dsimp only
  have hmem : ∀ x ∈ List.filterMap
      (fun (e : Option ℚ × ℚ) => Option.map (fun v => (v, e.2)) e.1)
      [(ReportConsolidator.confSignal p1, (35 : ℚ)/100),
       (ReportConsolidator.confSignal p2, (20 : ℚ)/100),
       (ReportConsolidator.confSignal p3, (25 : ℚ)/100),
       (ReportConsolidator.confSignal p4, (20 : ℚ)/100)],
      (0 ≤ x.1 ∧ x.1 ≤ 1) ∧ 0 < x.2 := by
    intro x hx
    rw [List.mem_filterMap] at hx
    obtain ⟨e, he, hfe⟩ := hx
    obtain ⟨v, hv, hxv⟩ : ∃ v, e.1 = some v ∧ x = (v, e.2) := by
      rcases hv : e.1 with _ | v
      · rw [hv] at hfe; simp at hfe
      · rw [hv] at hfe
        simp only [Option.map_some', Option.some_inj] at hfe
        exact ⟨v, rfl, hfe.symm⟩
    subst hxv
    simp only [List.mem_cons, List.not_mem_nil, or_false] at he
    rcases he with he | he | he | he <;> subst he
    · exact ⟨confSignal_bounds p1 h1 v hv, by norm_num⟩
    · exact ⟨confSignal_bounds p2 h2 v hv, by norm_num⟩
    · exact ⟨confSignal_bounds p3 h3 v hv, by norm_num⟩
    · exact ⟨confSignal_bounds p4 h4 v hv, by norm_num⟩
  split
  · exact inUnit_zero
  · rename_i hlen
    have hne : List.filterMap
        (fun (e : Option ℚ × ℚ) => Option.map (fun v => (v, e.2)) e.1)
        [(ReportConsolidator.confSignal p1, (35 : ℚ)/100),
         (ReportConsolidator.confSignal p2, (20 : ℚ)/100),
         (ReportConsolidator.confSignal p3, (25 : ℚ)/100),
         (ReportConsolidator.confSignal p4, (20 : ℚ)/100)] ≠ [] := by
      intro hnil
      exact hlen (by rw [hnil]; rfl)
    constructor
    · exact div_nonneg
        (sum_mul_nonneg _ (fun x hx => ⟨(hmem x hx).1.1, (hmem x hx).2⟩))
        (sum_snd_nonneg _ (fun x hx => (hmem x hx).2))
    · rw [div_le_one (sum_snd_pos _ hne (fun x hx => (hmem x hx).2))]
      exact sum_mul_le_sum_snd _ hmem

-- ═══════════════════════════════════════════════════════════════════
-- C6
-- ═══════════════════════════════════════════════════════════════════

/-- C6 counterexample: per-field and overall confidences supplied by the
model are passed through without clamping — a Phase-1 run on the
description path whose model payload carries `overall_confidence: 5`
produces an artifact carrying 5, outside [0,1]. -/
theorem c6_counterexample :
    (WebsiteExtractionAgent.extract none (some wDescEx)
      (Except.ok { parsed := some pBad, model := none })).overall_confidence = some 5 ∧
    ¬ ((5 : ℚ) ≤ 1) := ⟨rfl, by norm_num⟩

/-- C6 amended: PROVIDED every model-supplied confidence lies in [0,1],
each aggregate the pipeline computes lies in [0,1] — the Phase-1
parse-path mean, the Phase-1 reconciliation mean (capped at 1), the
Phase-4 overall confidence over a (truncated, ≤3) competitor list, and
the consolidated weighted average; and each defaults to 0 when no
signal exists (no contributing phase, empty artifact). -/
theorem c6_confidence_bounds :
    (∀ p : WebsiteExtractionAgent.Profile, profileConfBounded p →
      inUnit (WebsiteExtractionAgent.parseOverallConfidence p)) ∧
    (∀ p : WebsiteExtractionAgent.Profile, profileConfBounded p →
      inUnit (WebsiteExtractionAgent.reconcileOverallConfidence p)) ∧
    (∀ (a : CompetitorAnalysisAgent.Analysis)
       (cs : List CompetitorAnalysisAgent.Competitor),
      a.competitors = some cs → cs.length ≤ 3 →
      (∀ c ∈ cs, inUnit (c.score.getD 0)) →
      inUnit (CompetitorAnalysisAgent.calculateOverallConfidence a)) ∧
    (∀ p1 p2 p3 p4 : Option ReportConsolidator.PhaseArtifact,
      artifactBounded p1 → artifactBounded p2 → artifactBounded p3 →
      artifactBounded p4 →
      inUnit (ReportConsolidator.calculateOverallConfidence p1 p2 p3 p4)) ∧
    (ReportConsolidator.calculateOverallConfidence none none none none = 0 ∧
     (WebsiteExtractionAgent.getEmptyProfile (some ("unknown"))).overall_confidence =
       some 0 ∧
     (CompetitorAnalysisAgent.getEmptyAnalysis none).overall_confidence = some 0) := by
  refine ⟨parseOverall_bounds, reconcileOverall_bounds, phase4Overall_bounds,
    consolidatorOverall_bounds, rfl, rfl, rfl⟩

/-- Witness for C6 amended: the bounds applied to concrete in-range
inputs — the Phase-1 payload with name confidence 0.5 and a consolidator
input with one phase at 0.8. -/
theorem c6_witness :
    inUnit (WebsiteExtractionAgent.parseOverallConfidence pEx) ∧
    inUnit (ReportConsolidator.calculateOverallConfidence
      (some { overall_confidence := some ((8 : ℚ)/10) }) none none none) := by
  constructor
  · apply c6_confidence_bounds.1 pEx
    refine ⟨?_, ?_, ?_⟩
    · intro bi n h1 h2
      simp only [pEx, Option.some_inj] at h1
      subst h1
      simp only [bEx, Option.some_inj] at h2
      subst h2
      simp only [nEx, Option.getD_some]
      exact ⟨by norm_num, by norm_num⟩
    · intro bi c h1 h2
      simp only [pEx, Option.some_inj] at h1
      subst h1
      simp [bEx] at h2
    · intro l o h1 h2
      simp [pEx] at h1
  · apply c6_confidence_bounds.2.2.2.1
    · intro a c ha hc
      simp only [Option.some_inj] at ha
      subst ha
      simp only [Option.some_inj] at hc
      subst hc
      exact ⟨by norm_num, by norm_num⟩
    · intro a c ha hc
      simp at ha
    · intro a c ha hc
      simp at ha
    · intro a c ha hc
      simp at ha
